import Mathlib

/-!
Shallow embedding of src/drv/device_hints.c: a static table of device hint
records generated from device_hints.dts. The file holds a single struct type
`devhint_t` and a two-element array `hints` of designated initializers; it
contains no executable code beyond the static data.
-/

/-- C semantics of a designated initializer for a `uint64_t name[32]` array:
the listed values fill the leading slots in order and every remaining slot is
zero-filled. An absent initializer is the empty list (all 32 slots zero). -/
def cArray32 (init : List Nat) : List Nat :=
  init ++ List.replicate (32 - init.length) 0

/-- The `devhint_t` struct of device_hints.c: a device-tree path string, two
32-slot arrays of unsigned 64-bit scalars (memory-mapped and port-mapped I/O
ranges as flattened start/end pairs, zero-padded), and an unsigned 32-bit
interrupt line. Machine integers are modelled as `Nat`; the 64-bit and 32-bit
bounds are stated and proved as claims over the data. -/
structure devhint_t where
  path : String
  iomem : List Nat
  ioport : List Nat
  irq : Nat
deriving DecidableEq, Repr

/-- First initializer of the `hints` array (uart@0). The `ioport` field is
absent in the C source, hence entirely zero-filled. -/
def hint0 : devhint_t :=
  { iomem := cArray32 [1016, 1023, 760, 767],
    ioport := cArray32 [],
    irq := 0x4,
    path := "/rootdev/pci@0/isab@0/isa@0/uart@0" }

/-- Second initializer of the `hints` array (uart@1). -/
def hint1 : devhint_t :=
  { ioport := cArray32 [96, 96, 100, 100],
    iomem := cArray32 [760, 767],
    irq := 0x3,
    path := "/rootdev/pci@0/isab@0/isa@0/uart@1" }

/-- The `hints` array of device_hints.c, in source order. -/
def hints : List devhint_t := [hint0, hint1]

/-- Scalars of an array up to and including the last nonzero slot: the
trailing zero slots are the zero-fill padding of the initializer. -/
def trimTrailingZeros (l : List Nat) : List Nat :=
  (l.reverse.dropWhile (fun x => x == 0)).reverse

/-- Group a flattened scalar sequence into consecutive (start, end) pairs;
a dangling trailing scalar without a partner is dropped. -/
def toPairs : List Nat → List (Nat × Nat)
  | a :: b :: rest => (a, b) :: toPairs rest
  | _ => []

/-- The real (non-padding) range pairs of an `iomem`/`ioport` array: the
scalars before the zero-fill padding, grouped into (start, end) pairs. -/
def realRanges (l : List Nat) : List (Nat × Nat) :=
  toPairs (trimTrailingZeros l)

/-- A read of the `hints` table at some point of the process lifetime
(the parameter stands for the moment of the read). The source file contains
no code that writes the table after its static initialization, so every
read returns the initialized data. -/
def readHints (_t : Nat) : List devhint_t := hints

/-- Two inclusive (start, end) ranges overlap when some address lies in
both, i.e. the larger start is at most the smaller end. -/
def overlaps (p q : Nat × Nat) : Prop := max p.1 q.1 ≤ min p.2 q.2

instance (p q : Nat × Nat) : Decidable (overlaps p q) :=
  inferInstanceAs (Decidable (max p.1 q.1 ≤ min p.2 q.2))

/-- C1: the `hints` table holds exactly 2 records, in order: first the
uart@0 record, then the uart@1 record, and the per-record view (path, real
iomem ranges, real ioport ranges, irq) matches the literal content of spec
section 6. -/
theorem C1_table_content :
    hints.length = 2 ∧
    hints.map (fun r => (r.path, realRanges r.iomem, realRanges r.ioport, r.irq)) =
      [("/rootdev/pci@0/isab@0/isa@0/uart@0",
        [(1016, 1023), (760, 767)], ([] : List (Nat × Nat)), 4),
       ("/rootdev/pci@0/isab@0/isa@0/uart@1",
        [(760, 767)], [(96, 96), (100, 100)], 3)] := by
  decide

/-- C2: the first record of the table is the uart@0 record; its real iomem
range sequence is exactly (1016,1023),(760,767), its ioport array is entirely
zero (no real ranges), and its irq is 4. -/
theorem C2_first_record :
    hints.get? 0 = some hint0 ∧
    hint0.path = "/rootdev/pci@0/isab@0/isa@0/uart@0" ∧
    realRanges hint0.iomem = [(1016, 1023), (760, 767)] ∧
    realRanges hint0.ioport = [] ∧
    hint0.ioport = List.replicate 32 0 ∧
    hint0.irq = 4 := by
  decide

/-- C3: the second record of the table is the uart@1 record; its real iomem
range sequence is exactly (760,767), its real ioport range sequence is
exactly (96,96),(100,100), and its irq is 3. -/
theorem C3_second_record :
    hints.get? 1 = some hint1 ∧
    hint1.path = "/rootdev/pci@0/isab@0/isa@0/uart@1" ∧
    realRanges hint1.iomem = [(760, 767)] ∧
    realRanges hint1.ioport = [(96, 96), (100, 100)] ∧
    hint1.irq = 3 := by
  decide

/-- C4: every record of the table has a non-empty path, and any two distinct
records of the table have different paths (path is a unique key). -/
theorem C4_path_key (r s : devhint_t) (hr : r ∈ hints) (hs : s ∈ hints) :
    r.path ≠ "" ∧ (r ≠ s → r.path ≠ s.path) := by
  simp only [hints, List.mem_cons, List.mem_singleton, List.not_mem_nil,
    or_false] at hr hs
  rcases hr with rfl | rfl <;> rcases hs with rfl | rfl <;>
    first
      | exact ⟨by decide, fun hne => absurd rfl hne⟩
      | exact ⟨by decide, fun _ => by decide⟩

theorem C4_path_key_witness :
    hint0 ∈ hints ∧ hint1 ∈ hints ∧
    (hint0.path ≠ "" ∧ (hint0 ≠ hint1 → hint0.path ≠ hint1.path)) :=
  ⟨by decide, by decide, C4_path_key hint0 hint1 (by decide) (by decide)⟩

/-- C5: every record of the table has exactly 32 scalar slots in its iomem
array and 32 in its ioport array, and every slot past the record's last real
range pair is zero. -/
theorem C5_capacity_and_padding (r : devhint_t) (hr : r ∈ hints) :
    r.iomem.length = 32 ∧ r.ioport.length = 32 ∧
    (∀ v ∈ r.iomem.drop (2 * (realRanges r.iomem).length), v = 0) ∧
    (∀ v ∈ r.ioport.drop (2 * (realRanges r.ioport).length), v = 0) := by
  simp only [hints, List.mem_cons, List.mem_singleton, List.not_mem_nil,
    or_false] at hr
  rcases hr with rfl | rfl <;> decide

theorem C5_capacity_and_padding_witness :
    hint0 ∈ hints ∧
    (hint0.iomem.length = 32 ∧ hint0.ioport.length = 32 ∧
      (∀ v ∈ hint0.iomem.drop (2 * (realRanges hint0.iomem).length), v = 0) ∧
      (∀ v ∈ hint0.ioport.drop (2 * (realRanges hint0.ioport).length), v = 0)) :=
  ⟨by decide, C5_capacity_and_padding hint0 (by decide)⟩

/-- C6: in every record of the table, the number of non-padding scalars of
the iomem array is even, and likewise for the ioport array: every real range
is a complete (start, end) pair, never a dangling start without an end. -/
theorem C6_even_scalar_counts (r : devhint_t) (hr : r ∈ hints) :
    (trimTrailingZeros r.iomem).length % 2 = 0 ∧
    (trimTrailingZeros r.ioport).length % 2 = 0 := by
  simp only [hints, List.mem_cons, List.mem_singleton, List.not_mem_nil,
    or_false] at hr
  rcases hr with rfl | rfl <;> decide

theorem C6_even_scalar_counts_witness :
    hint1 ∈ hints ∧
    ((trimTrailingZeros hint1.iomem).length % 2 = 0 ∧
      (trimTrailingZeros hint1.ioport).length % 2 = 0) :=
  ⟨by decide, C6_even_scalar_counts hint1 (by decide)⟩

/-- C7: reading the table is deterministic: a read at any moment yields the
same value as a read at any other moment, namely the statically initialized
table, which no code of the source file ever mutates. -/
theorem C7_reads_deterministic :
    (∀ i j : Nat, readHints i = readHints j) ∧ ∀ i : Nat, readHints i = hints :=
  ⟨fun _ _ => rfl, fun _ => rfl⟩

/-- C8: in every record of the table the irq value fits in an unsigned
32-bit integer and every iomem and ioport scalar fits in an unsigned 64-bit
integer. -/
theorem C8_values_in_range (r : devhint_t) (hr : r ∈ hints) :
    r.irq < 2 ^ 32 ∧ (∀ v ∈ r.iomem, v < 2 ^ 64) ∧
    ∀ v ∈ r.ioport, v < 2 ^ 64 := by
  simp only [hints, List.mem_cons, List.mem_singleton, List.not_mem_nil,
    or_false] at hr
  rcases hr with rfl | rfl <;> decide

theorem C8_values_in_range_witness :
    hint0 ∈ hints ∧
    (hint0.irq < 2 ^ 32 ∧ (∀ v ∈ hint0.iomem, v < 2 ^ 64) ∧
      ∀ v ∈ hint0.ioport, v < 2 ^ 64) :=
  ⟨by decide, C8_values_in_range hint0 (by decide)⟩

/-- C9: in every record of the table, every real (non-padding) range pair of
the iomem and ioport arrays satisfies start ≤ end. -/
theorem C9_ranges_well_formed (r : devhint_t) (hr : r ∈ hints) :
    (∀ p ∈ realRanges r.iomem, p.1 ≤ p.2) ∧
    ∀ p ∈ realRanges r.ioport, p.1 ≤ p.2 := by
  simp only [hints, List.mem_cons, List.mem_singleton, List.not_mem_nil,
    or_false] at hr
  rcases hr with rfl | rfl <;> decide

theorem C9_ranges_well_formed_witness :
    hint1 ∈ hints ∧
    ((∀ p ∈ realRanges hint1.iomem, p.1 ≤ p.2) ∧
      ∀ p ∈ realRanges hint1.ioport, p.1 ≤ p.2) :=
  ⟨by decide, C9_ranges_well_formed hint1 (by decide)⟩

/-- C10: the iomem ranges of distinct records are not disjoint: (760,767)
is the second real iomem range of the first record and the only real iomem
range of the second record, so two distinct records (their paths differ)
have overlapping iomem ranges. -/
theorem C10_iomem_overlap :
    (realRanges hint0.iomem).get? 1 = some (760, 767) ∧
    realRanges hint1.iomem = [(760, 767)] ∧
    hint0.path ≠ hint1.path ∧
    ∃ p ∈ realRanges hint0.iomem, ∃ q ∈ realRanges hint1.iomem,
      overlaps p q := by
  decide
